import Mathlib

/-!
Verification development for the same-same vector database.

The Go source is shallowly embedded: `float64` values become real numbers,
`time.Time` values become rationals (seconds since the epoch, the zero value
being `0`), Go maps become functions into `Option` or association lists where
the length of the map is observed, and fallible operations return `Except` or
pair the new state with an optional error, mirroring Go's mutate-and-return-
error style.  The iteration order of a Go map over records is arbitrary, so
every search and store operation takes the snapshot of records as an explicit
list parameter.  External library behaviour that the repository does not
define (`fmt.Sscanf` float parsing, `fmt.Sprint` float formatting,
`strings.ToLower`, RFC3339 time parsing, the wall clock, file-system success
or failure) is passed in as an explicit parameter.
-/

namespace SameSame

/-- Go `time.Time`, modelled as seconds since the epoch; `IsZero` is `= 0`. -/
abbrev GoTime := ℚ

/-- A dynamic Go `interface\x7b\x7d` value as it appears in filter operands:
strings, ints (all int/uint kinds merged), float64, bool, and slices. -/
inductive GoVal where
  | str (s : String)
  | int (n : Int)
  | float (q : ℚ)
  | boolean (b : Bool)
  | list (xs : List GoVal)

mutual

/-- Go `fmt.Sprint` on a `GoVal`; float formatting is the parameter
`sprintF` since the repository does not define it. -/
def sprint (sprintF : ℚ → String) : GoVal → String
  | .str s => s
  | .int n => toString n
  | .float q => sprintF q
  | .boolean b => if b then "true" else "false"
  | .list xs => "[" ++ sprintListAux sprintF xs ++ "]"

/-- Elements of a slice printed space-separated, as `fmt.Sprint` does. -/
def sprintListAux (sprintF : ℚ → String) : List GoVal → String
  | [] => ""
  | [x] => sprint sprintF x
  | x :: xs => sprint sprintF x ++ " " ++ sprintListAux sprintF xs

end

/-- `models.Vector`: id, embedding, string metadata, timestamps. -/
structure Vector where
  id : String
  embedding : List ℝ
  metadata : String → Option String
  createdAt : GoTime
  updatedAt : GoTime

/-- The running sums of the `CosineSimilarity` loop: dot product of two
equal-length slices (`zipWith` stops at the shorter, matching the loop bound
when the lengths are equal, which is the only case in which it is used). -/
def dotSum (a b : List ℝ) : ℝ :=
  (List.zipWith (fun x y => x * y) a b).sum

/-- A query-only vector as built by the search loops:
`&models.Vector\x7bEmbedding: req.Embedding\x7d`. -/
def queryOnly (embedding : List ℝ) : Vector :=
  { id := "", embedding := embedding, metadata := fun _ => none,
    createdAt := 0, updatedAt := 0 }

/-- `models.Vector.CosineSimilarity`: 0 on length mismatch, 0 when either
sum of squares is 0, otherwise dot / (sqrt(normA) * sqrt(normB)). -/
noncomputable def CosineSimilarity (v other : Vector) : ℝ :=
  if v.embedding.length ≠ other.embedding.length then 0
  else if dotSum v.embedding v.embedding = 0 ∨ dotSum other.embedding other.embedding = 0 then 0
  else dotSum v.embedding other.embedding /
    (Real.sqrt (dotSum v.embedding v.embedding) * Real.sqrt (dotSum other.embedding other.embedding))

lemma dotSum_nil_left (b : List ℝ) : dotSum [] b = 0 := by
  simp [dotSum]

lemma dotSum_cons (x : ℝ) (a : List ℝ) (y : ℝ) (b : List ℝ) :
    dotSum (x :: a) (y :: b) = x * y + dotSum a b := by
  simp [dotSum]

lemma dotSum_self_nonneg (a : List ℝ) : 0 ≤ dotSum a a := by
  induction a with
  | nil => simp [dotSum]
  | cons x xs ih =>
      rw [dotSum_cons]
      have := mul_self_nonneg x
      linarith

/-- The dot product of equal-length lists as a finite sum over positions. -/
lemma dotSum_eq_finsum (a b : List ℝ) (h : a.length = b.length) :
    dotSum a b = ∑ i ∈ Finset.range a.length, a.getD i 0 * b.getD i 0 := by
  induction a generalizing b with
  | nil => simp [dotSum]
  | cons x xs ih =>
      cases b with
      | nil => simp at h
      | cons y ys =>
          have hlen : xs.length = ys.length := by simpa using h
          rw [dotSum_cons, ih ys hlen]
          rw [List.length_cons, Finset.sum_range_succ']
          simp [add_comm]

/-- Cauchy-Schwarz for the loop sums of equal-length lists. -/
lemma abs_dotSum_le (a b : List ℝ) (h : a.length = b.length) :
    |dotSum a b| ≤ Real.sqrt (dotSum a a) * Real.sqrt (dotSum b b) := by
  have ha := dotSum_eq_finsum a a rfl
  have hb := dotSum_eq_finsum b b rfl
  have hab := dotSum_eq_finsum a b h
  rw [abs_le]
  constructor
  · have key := Real.sum_mul_le_sqrt_mul_sqrt (Finset.range a.length)
      (fun i => a.getD i 0) (fun i => -(b.getD i 0))
    have h1 : ∑ i ∈ Finset.range a.length, a.getD i 0 * -(b.getD i 0) = -(dotSum a b) := by
      rw [hab, ← Finset.sum_neg_distrib]
      exact Finset.sum_congr rfl (fun i _ => by ring)
    have h2 : ∑ i ∈ Finset.range a.length, a.getD i 0 ^ 2 = dotSum a a := by
      rw [ha]; exact Finset.sum_congr rfl (fun i _ => by ring)
    have h3 : ∑ i ∈ Finset.range a.length, (-(b.getD i 0)) ^ 2 = dotSum b b := by
      rw [hb, h]; exact Finset.sum_congr rfl (fun i _ => by ring)
    rw [h1, h2, h3] at key
    linarith
  · have key := Real.sum_mul_le_sqrt_mul_sqrt (Finset.range a.length)
      (fun i => a.getD i 0) (fun i => b.getD i 0)
    have h1 : ∑ i ∈ Finset.range a.length, a.getD i 0 * b.getD i 0 = dotSum a b := hab.symm
    have h2 : ∑ i ∈ Finset.range a.length, a.getD i 0 ^ 2 = dotSum a a := by
      rw [ha]; exact Finset.sum_congr rfl (fun i _ => by ring)
    have h3 : ∑ i ∈ Finset.range a.length, b.getD i 0 ^ 2 = dotSum b b := by
      rw [hb, h]; exact Finset.sum_congr rfl (fun i _ => by ring)
    rw [h1, h2, h3] at key
    exact key

/-- The Euclidean norm of an embedding: sqrt of the loop sum of squares. -/
noncomputable def embNorm (a : List ℝ) : ℝ :=
  Real.sqrt (dotSum a a)

lemma embNorm_eq_zero_iff (a : List ℝ) : embNorm a = 0 ↔ dotSum a a = 0 := by
  unfold embNorm
  constructor
  · intro h
    have := dotSum_self_nonneg a
    nlinarith [Real.sq_sqrt this, Real.sqrt_nonneg (dotSum a a)]
  · intro h
    rw [h, Real.sqrt_zero]

lemma cosine_eq_zero_of_len_ne (a b : Vector)
    (h : a.embedding.length ≠ b.embedding.length) : CosineSimilarity a b = 0 := by
  unfold CosineSimilarity
  rw [if_pos h]

lemma cosine_eq_zero_of_norm_zero (a b : Vector)
    (h : dotSum a.embedding a.embedding = 0 ∨ dotSum b.embedding b.embedding = 0) :
    CosineSimilarity a b = 0 := by
  unfold CosineSimilarity
  by_cases hlen : a.embedding.length ≠ b.embedding.length
  · rw [if_pos hlen]
  · rw [if_neg hlen, if_pos h]

lemma cosine_eq_div (a b : Vector) (hlen : a.embedding.length = b.embedding.length)
    (hza : dotSum a.embedding a.embedding ≠ 0) (hzb : dotSum b.embedding b.embedding ≠ 0) :
    CosineSimilarity a b = dotSum a.embedding b.embedding /
      (Real.sqrt (dotSum a.embedding a.embedding) * Real.sqrt (dotSum b.embedding b.embedding)) := by
  unfold CosineSimilarity
  rw [if_neg (by simpa using hlen), if_neg (by tauto)]

/-- C4.  `CosineSimilarity` always lies in `[-1, 1]`; it is `0` when the
dimensions differ or either Euclidean norm is `0`; otherwise it equals the
dot product divided by the product of the Euclidean norms. -/
theorem cosineSimilarity_spec (a b : Vector) :
    (-1 ≤ CosineSimilarity a b ∧ CosineSimilarity a b ≤ 1)
    ∧ (a.embedding.length ≠ b.embedding.length → CosineSimilarity a b = 0)
    ∧ (embNorm a.embedding = 0 ∨ embNorm b.embedding = 0 → CosineSimilarity a b = 0)
    ∧ (a.embedding.length = b.embedding.length →
        embNorm a.embedding ≠ 0 → embNorm b.embedding ≠ 0 →
        CosineSimilarity a b =
          dotSum a.embedding b.embedding / (embNorm a.embedding * embNorm b.embedding)) := by
  refine ⟨?_, cosine_eq_zero_of_len_ne a b, ?_, ?_⟩
  · by_cases hlen : a.embedding.length = b.embedding.length
    · by_cases hz : dotSum a.embedding a.embedding = 0 ∨ dotSum b.embedding b.embedding = 0
      · rw [cosine_eq_zero_of_norm_zero a b hz]
        norm_num
      · push_neg at hz
        obtain ⟨hza, hzb⟩ := hz
        have hpa : 0 < dotSum a.embedding a.embedding :=
          lt_of_le_of_ne (dotSum_self_nonneg _) (Ne.symm hza)
        have hpb : 0 < dotSum b.embedding b.embedding :=
          lt_of_le_of_ne (dotSum_self_nonneg _) (Ne.symm hzb)
        have hprod : 0 < Real.sqrt (dotSum a.embedding a.embedding) *
            Real.sqrt (dotSum b.embedding b.embedding) :=
          mul_pos (Real.sqrt_pos.2 hpa) (Real.sqrt_pos.2 hpb)
        have hcs := abs_dotSum_le a.embedding b.embedding hlen
        have habs : |dotSum a.embedding b.embedding /
            (Real.sqrt (dotSum a.embedding a.embedding) *
              Real.sqrt (dotSum b.embedding b.embedding))| ≤ 1 := by
          rw [abs_div, abs_of_pos hprod, div_le_one hprod]
          exact hcs
        rw [abs_le] at habs
        rw [cosine_eq_div a b hlen hza hzb]
        exact habs
    · rw [cosine_eq_zero_of_len_ne a b hlen]
      norm_num
  · intro h
    refine cosine_eq_zero_of_norm_zero a b ?_
    rcases h with h | h
    · exact Or.inl ((embNorm_eq_zero_iff _).1 h)
    · exact Or.inr ((embNorm_eq_zero_iff _).1 h)
  · intro hlen hna hnb
    simp only [ne_eq, embNorm_eq_zero_iff] at hna hnb
    rw [cosine_eq_div a b hlen hna hnb]
    rfl

/-- Concrete instantiation of `cosineSimilarity_spec`: vectors of mismatched
dimensions get similarity 0, and the bounds hold there too. -/
theorem cosineSimilarity_spec_witness :
    ([(1 : ℝ), 0].length ≠ [(1 : ℝ)].length)
    ∧ CosineSimilarity (queryOnly [(1 : ℝ), 0]) (queryOnly [(1 : ℝ)]) = 0
    ∧ -1 ≤ CosineSimilarity (queryOnly [(1 : ℝ), 0]) (queryOnly [(1 : ℝ)]) := by
  have h := cosineSimilarity_spec (queryOnly [(1 : ℝ), 0]) (queryOnly [(1 : ℝ)])
  have hlen : ((queryOnly [(1 : ℝ), 0]).embedding.length ≠ (queryOnly [(1 : ℝ)]).embedding.length) := by
    simp [queryOnly]
  exact ⟨by simp, h.2.1 hlen, h.1.1⟩

/-- A filter expression `models.FilterExpr`: a map from operator name to
operand, modelled as an association list (Go map iteration order does not
affect the conjunction computed by `evaluateExpression`). -/
abbrev FilterExpr := List (String × GoVal)

section FilterEvaluator

/- In this section, `parseF` models `fmt.Sscanf(s, "%f", &f)`, `sprintF`
models `fmt.Sprint` on a float64, and `lowerS` models `strings.ToLower`;
the repository does not define these library functions. -/
variable (parseF : String → Option ℚ) (sprintF : ℚ → String) (lowerS : String → String)

/-- `FilterEvaluator.toFloat64`: ints and floats convert, strings parse via
`Sscanf`, anything else is an error (`none`). -/
def toFloat64 : GoVal → Option ℚ
  | .int n => some (n : ℚ)
  | .float q => some q
  | .str s => parseF s
  | _ => none

/-- `FilterEvaluator.compareLess`: numeric when both sides parse, otherwise
string comparison on `value` and `fmt.Sprint(expected)`. -/
def compareLess (value : String) (expected : GoVal) (orEqual : Bool) : Bool :=
  match parseF value, toFloat64 parseF expected with
  | some valFloat, some expFloat =>
      if orEqual then valFloat ≤ expFloat else valFloat < expFloat
  | _, _ =>
      if orEqual then value ≤ sprint sprintF expected else value < sprint sprintF expected

/-- `FilterEvaluator.compareGreater`. -/
def compareGreater (value : String) (expected : GoVal) (orEqual : Bool) : Bool :=
  match parseF value, toFloat64 parseF expected with
  | some valFloat, some expFloat =>
      if orEqual then expFloat ≤ valFloat else expFloat < valFloat
  | _, _ =>
      if orEqual then sprint sprintF expected ≤ value else sprint sprintF expected < value

/-- `FilterEvaluator.compareBetween`: the operand must be a 2-element slice
and all three values must parse as floats. -/
def compareBetween (value : String) (expected : GoVal) : Bool :=
  match expected with
  | .list [lo, hi] =>
      match parseF value, toFloat64 parseF lo, toFloat64 parseF hi with
      | some v, some mn, some mx => decide (mn ≤ v) && decide (v ≤ mx)
      | _, _, _ => false
  | _ => false

/-- `FilterEvaluator.compareIn`: the operand must be a slice and the value
must equal the `fmt.Sprint` of one of its elements. -/
def compareIn (value : String) (expected : GoVal) : Bool :=
  match expected with
  | .list xs => xs.any fun item => value == sprint sprintF item
  | _ => false

/-- Substring test on lowered strings, modelling
`strings.Contains(strings.ToLower(v), strings.ToLower(x))`. -/
def containsLower (value search : String) : Bool :=
  decide (List.IsInfix (lowerS search).toList (lowerS value).toList)

/-- One iteration of the `evaluateExpression` loop: the pass condition of a
single operator; `value` is the metadata value (zero value `""` when the
field is absent) and `fieldPresent` is the comma-ok presence bit. -/
def evalOp (value : String) (fieldPresent : Bool) (opv : String × GoVal) : Bool :=
  match opv.1 with
  | "eq" => fieldPresent && value == sprint sprintF opv.2
  | "neq" => fieldPresent && !(value == sprint sprintF opv.2)
  | "lt" => fieldPresent && compareLess parseF sprintF value opv.2 false
  | "lte" => fieldPresent && compareLess parseF sprintF value opv.2 true
  | "gt" => fieldPresent && compareGreater parseF sprintF value opv.2 false
  | "gte" => fieldPresent && compareGreater parseF sprintF value opv.2 true
  | "between" => fieldPresent && compareBetween parseF value opv.2
  | "contains" => fieldPresent && containsLower lowerS value (sprint sprintF opv.2)
  | "in" => fieldPresent && compareIn sprintF value opv.2
  | "exists" =>
      match opv.2 with
      | .boolean expectedExists => fieldPresent == expectedExists
      | _ => false
  | _ => false

/-- `FilterEvaluator.evaluateExpression`: a conjunction over the operators of
the expression. -/
def evaluateExpression (value : String) (fieldPresent : Bool) (expr : FilterExpr) : Bool :=
  expr.all (evalOp parseF sprintF lowerS value fieldPresent)

/-- `FilterEvaluator.Evaluate`: a record matches iff every field predicate is
satisfied; an empty filter map matches everything. -/
def Evaluate (metadata : String → Option String) (filters : List (String × FilterExpr)) : Bool :=
  if filters.isEmpty then true
  else filters.all fun fe =>
    evaluateExpression parseF sprintF lowerS ((metadata fe.1).getD "") (metadata fe.1).isSome fe.2

end FilterEvaluator

/-- The operator names `evaluateExpression` knows. -/
def knownOps : List String :=
  ["eq", "neq", "lt", "lte", "gt", "gte", "between", "contains", "in", "exists"]

lemma evalOp_absent (parseF : String → Option ℚ) (sprintF : ℚ → String)
    (lowerS : String → String) (value : String) (op : String) (v : GoVal)
    (h : op ≠ "exists") :
    evalOp parseF sprintF lowerS value false (op, v) = false := by
  unfold evalOp
  split <;> first
    | (rename_i heq; simp at heq; subst heq; exact absurd rfl h)
    | simp

lemma evalOp_unknown (parseF : String → Option ℚ) (sprintF : ℚ → String)
    (lowerS : String → String) (value : String) (fieldPresent : Bool) (op : String) (v : GoVal)
    (h : op ∉ knownOps) :
    evalOp parseF sprintF lowerS value fieldPresent (op, v) = false := by
  unfold evalOp
  split <;> first
    | rfl
    | (rename_i heq; simp at heq; subst heq; simp [knownOps] at h)

lemma all_eq_false_of_mem {α : Type} (p : α → Bool) (l : List α) (x : α)
    (hmem : x ∈ l) (hx : p x = false) : l.all p = false := by
  cases hall : l.all p with
  | false => rfl
  | true => exact absurd (List.all_eq_true.1 hall x hmem) (by simp [hx])

/-- C5.  Missing-field policy of the filter evaluator: when the field is
absent, every expression containing an operator other than `exists` fails;
`exists: true` is satisfied exactly when the field is present, `exists: false`
exactly when it is absent; and an expression containing an operator outside
the grammar makes the predicate fail (it returns `false`; the evaluator has
no error channel, so the query never errors). -/
theorem evaluateExpression_missing_exists_unknown
    (parseF : String → Option ℚ) (sprintF : ℚ → String) (lowerS : String → String)
    (value : String) (fieldPresent : Bool) (expr : FilterExpr) :
    (∀ op v, (op, v) ∈ expr → op ≠ "exists" →
      evaluateExpression parseF sprintF lowerS value false expr = false)
    ∧ (∀ b, evaluateExpression parseF sprintF lowerS value fieldPresent [("exists", .boolean b)]
        = (fieldPresent == b))
    ∧ (∀ op v, (op, v) ∈ expr → op ∉ knownOps →
      evaluateExpression parseF sprintF lowerS value fieldPresent expr = false) := by
  refine ⟨?_, ?_, ?_⟩
  · intro op v hmem hne
    exact all_eq_false_of_mem _ expr (op, v) hmem
      (evalOp_absent parseF sprintF lowerS value op v hne)
  · intro b
    unfold evaluateExpression
    cases fieldPresent <;> cases b <;> simp [evalOp]
  · intro op v hmem hunk
    exact all_eq_false_of_mem _ expr (op, v) hmem
      (evalOp_unknown parseF sprintF lowerS value fieldPresent op v hunk)

/-- Concrete instantiation of the missing-field and unknown-operator rules:
an absent field fails `eq`, satisfies `exists: false`, and an unknown
operator `"like"` fails the predicate. -/
theorem evaluateExpression_missing_exists_unknown_witness :
    evaluateExpression (fun _ => none) (fun _ => "") id "" false [("eq", .str "x")] = false
    ∧ evaluateExpression (fun _ => none) (fun _ => "") id "" false [("exists", .boolean false)]
        = true
    ∧ evaluateExpression (fun _ => none) (fun _ => "") id "" true [("like", .str "x")] = false := by
  have h1 := (evaluateExpression_missing_exists_unknown (fun _ => none) (fun _ => "") id
    "" false [("eq", GoVal.str "x")]).1 "eq" (.str "x") (by simp) (by decide)
  have h2 := (evaluateExpression_missing_exists_unknown (fun _ => none) (fun _ => "") id
    "" false [("exists", GoVal.boolean false)]).2.1 false
  have h3 := (evaluateExpression_missing_exists_unknown (fun _ => none) (fun _ => "") id
    "" true [("like", GoVal.str "x")]).2.2 "like" (.str "x") (by simp) (by decide)
  exact ⟨h1, by simpa using h2, h3⟩

/-- C9.  A field predicate with an empty expression map evaluates to `true`
even when the field is absent, so a filter of the form
`\x7bfield: \x7b\x7d\x7d` excludes no record. -/
theorem evaluate_empty_expression
    (parseF : String → Option ℚ) (sprintF : ℚ → String) (lowerS : String → String)
    (value : String) (fieldPresent : Bool)
    (metadata : String → Option String) (field : String) :
    evaluateExpression parseF sprintF lowerS value fieldPresent ([] : FilterExpr) = true
    ∧ Evaluate parseF sprintF lowerS metadata [(field, ([] : FilterExpr))] = true := by
  constructor
  · rfl
  · unfold Evaluate
    simp [evaluateExpression]

/-- Decidability (classical, on the reals) of the score comparator used by
every `sort.Slice` call in the search paths. -/
noncomputable instance scoreDecRel {α : Type} (score : α → ℝ) :
    DecidableRel (fun p q : α => score q ≤ score p) :=
  fun p q => Real.decidableLE (score q) (score p)

/-- Model of `sort.Slice(results, func(i, j) \x7b return results[i].Score >
results[j].Score \x7d)`.  Go uses an unstable sort, but for slices below the
pdqsort threshold it runs a stable insertion sort, so a stable insertion sort
by descending score is the exact model at the sizes considered here; for
larger inputs it still produces a list sorted by the comparator, which is
all the ranking lemmas use. -/
noncomputable def sortByScoreDesc {α : Type} (score : α → ℝ) (l : List α) : List α :=
  List.insertionSort (fun p q => score q ≤ score p) l

lemma sortByScoreDesc_sorted {α : Type} (score : α → ℝ) (l : List α) :
    (sortByScoreDesc score l).Pairwise (fun p q => score q ≤ score p) := by
  haveI : IsTotal α (fun p q => score q ≤ score p) := ⟨fun a b => le_total (score b) (score a)⟩
  haveI : IsTrans α (fun p q => score q ≤ score p) := ⟨fun a b c hab hbc => le_trans hbc hab⟩
  exact List.sorted_insertionSort _ l

lemma sortByScoreDesc_perm {α : Type} (score : α → ℝ) (l : List α) :
    (sortByScoreDesc score l).Perm l :=
  List.perm_insertionSort _ l

lemma sortByScoreDesc_length {α : Type} (score : α → ℝ) (l : List α) :
    (sortByScoreDesc score l).length = l.length :=
  (sortByScoreDesc_perm score l).length_eq

/-- The common truncation step `if k > 0 && len(results) > k \x7b results =
results[:k] \x7d` following the sort. -/
noncomputable def rankTruncate {α : Type} (score : α → ℝ) (k : Int) (l : List α) : List α :=
  if k > 0 ∧ ((sortByScoreDesc score l).length : Int) > k
  then (sortByScoreDesc score l).take k.toNat
  else sortByScoreDesc score l

lemma rankTruncate_sorted {α : Type} (score : α → ℝ) (k : Int) (l : List α) :
    (rankTruncate score k l).Pairwise (fun p q => score q ≤ score p) := by
  unfold rankTruncate
  split
  · exact List.Pairwise.take (sortByScoreDesc_sorted score l)
  · exact sortByScoreDesc_sorted score l

lemma rankTruncate_length {α : Type} (score : α → ℝ) (k : Int) (l : List α)
    (hk : 0 < k) : (rankTruncate score k l).length = min k.toNat l.length := by
  unfold rankTruncate
  have hlen := sortByScoreDesc_length score l
  split
  · rw [List.length_take, hlen]
  · rename_i hcond
    rw [hlen]
    push_neg at hcond
    have := hcond hk
    rw [hlen] at this
    omega

lemma rankTruncate_subset {α : Type} (score : α → ℝ) (k : Int) (l : List α)
    (x : α) (hx : x ∈ rankTruncate score k l) : x ∈ l := by
  unfold rankTruncate at hx
  have hperm := sortByScoreDesc_perm score l
  split at hx
  · exact hperm.mem_iff.1 (List.take_subset _ _ hx)
  · exact hperm.mem_iff.1 hx

/-- `models.SearchResult`. -/
structure SearchResult where
  vector : Vector
  score : ℝ

/-- `models.SearchRequest` as used by `memory.Storage.Search`. -/
structure SearchRequest where
  embedding : List ℝ
  limit : Int
  metadata : Option (List (String × String))

/-- `memory.matchesMetadata`: every query key must be mapped by the record
metadata to the queried value; a missing key reads as the zero value `""`. -/
def matchesMetadata (vectorMeta : String → Option String)
    (queryMeta : List (String × String)) : Bool :=
  queryMeta.all fun kv => ((vectorMeta kv.1).getD "") == kv.2

/-- The skip test `req.Metadata != nil && !matchesMetadata(...)`. -/
def skipByMetadata : Option (List (String × String)) → (String → Option String) → Bool
  | none, _ => false
  | some qm, vm => !(matchesMetadata vm qm)

/-- The accumulation loop of `memory.Storage.Search` over the snapshot of
the vectors map, in its (arbitrary) iteration order. -/
noncomputable def searchCandidates (vectors : List Vector) (req : SearchRequest) :
    List SearchResult :=
  vectors.filterMap fun vector =>
    if vector.embedding.length ≠ req.embedding.length then none
    else if skipByMetadata req.metadata vector.metadata then none
    else some ⟨vector, CosineSimilarity (queryOnly req.embedding) vector⟩

/-- `memory.Storage.Search`: accumulate, sort by score descending, truncate
to `req.Limit` when positive. -/
noncomputable def Search (vectors : List Vector) (req : SearchRequest) : List SearchResult :=
  rankTruncate SearchResult.score req.limit (searchCandidates vectors req)

/-- `models.HybridWeight`. -/
structure HybridWeight where
  vector : ℝ
  metadata : ℝ

/-- `models.SearchOptions`. -/
structure SearchOptions where
  hybridWeight : Option HybridWeight

/-- `models.MetadataFilter` (search.go's simple filter grammar). -/
structure MetadataFilter where
  field : String
  operator : String
  value : GoVal

/-- `models.SearchByEmbbedingRequest`. -/
structure SearchByEmbbedingRequest where
  embedding : List ℝ
  topK : Int
  options : Option SearchOptions
  filters : List MetadataFilter

/-- `search.compareNumeric`: the metadata value parses via `Sscanf`; the
operand converts from float, int, or parses from string. -/
def compareNumeric (parseF : String → Option ℚ) (a : String) (b : GoVal) (op : String) : Bool :=
  match parseF a with
  | none => false
  | some af =>
      match (match b with
             | .float v => some v
             | .int v => some (v : ℚ)
             | .str v => parseF v
             | _ => none) with
      | none => false
      | some bf =>
          match op with
          | ">=" => decide (bf ≤ af)
          | "<=" => decide (af ≤ bf)
          | ">" => decide (bf < af)
          | "<" => decide (af < bf)
          | _ => false

/-- `search.matchesAdvancedFilters`. -/
def matchesAdvancedFilters (parseF : String → Option ℚ) (sprintF : ℚ → String)
    (vectorMeta : String → Option String) (filters : List MetadataFilter) : Bool :=
  filters.all fun filter =>
    match vectorMeta filter.field with
    | none => false
    | some val =>
        match filter.operator with
        | "=" => val == sprint sprintF filter.value
        | "in" =>
            match filter.value with
            | .list arr => arr.any fun v => val == sprint sprintF v
            | _ => false
        | "not_in" =>
            match filter.value with
            | .list arr => arr.all fun v => !(val == sprint sprintF v)
            | _ => false
        | ">=" => compareNumeric parseF val filter.value ">="
        | "<=" => compareNumeric parseF val filter.value "<="
        | ">" => compareNumeric parseF val filter.value ">"
        | "<" => compareNumeric parseF val filter.value "<"
        | _ => false

/-- The accumulation loop of `search.FilterAndScoreVectors`. -/
noncomputable def fasCandidates (parseF : String → Option ℚ) (sprintF : ℚ → String)
    (vectors : List Vector) (req : SearchByEmbbedingRequest) : List SearchResult :=
  vectors.filterMap fun vector =>
    if vector.embedding.length ≠ req.embedding.length then none
    else if req.filters.length > 0
        && !(matchesAdvancedFilters parseF sprintF vector.metadata req.filters) then none
    else some ⟨vector, CosineSimilarity (queryOnly req.embedding) vector⟩

/-- The truncation step of `FilterAndScoreVectors`, whose condition (unlike
`rankTruncate`) does not re-test `k > 0` because `topK` was already
defaulted to 10. -/
noncomputable def sortTruncDefault {α : Type} (score : α → ℝ) (k : Int) (l : List α) :
    List α :=
  if ((sortByScoreDesc score l).length : Int) > k
  then (sortByScoreDesc score l).take k.toNat
  else sortByScoreDesc score l

lemma sortTruncDefault_sorted {α : Type} (score : α → ℝ) (k : Int) (l : List α) :
    (sortTruncDefault score k l).Pairwise (fun p q => score q ≤ score p) := by
  unfold sortTruncDefault
  split
  · exact List.Pairwise.take (sortByScoreDesc_sorted score l)
  · exact sortByScoreDesc_sorted score l

lemma sortTruncDefault_length {α : Type} (score : α → ℝ) (k : Int) (l : List α)
    (hk : 0 < k) : (sortTruncDefault score k l).length = min k.toNat l.length := by
  unfold sortTruncDefault
  have hlen := sortByScoreDesc_length score l
  split
  · rw [List.length_take, hlen]
  · rename_i hcond
    rw [hlen]
    push_neg at hcond
    rw [hlen] at hcond
    omega

/-- `search.FilterAndScoreVectors`: accumulate, sort by score descending,
default `TopK` to 10 when non-positive, truncate. -/
noncomputable def FilterAndScoreVectors (parseF : String → Option ℚ) (sprintF : ℚ → String)
    (vectors : List Vector) (req : SearchByEmbbedingRequest) : List SearchResult :=
  sortTruncDefault SearchResult.score (if req.topK ≤ 0 then 10 else req.topK)
    (fasCandidates parseF sprintF vectors req)

/-- `models.AdvancedSearchRequest`. -/
structure AdvancedSearchRequest where
  query : String
  topK : Int
  filters : List (String × FilterExpr)
  options : Option SearchOptions

/-- `memory.Storage.calculateMetadataScore`: 1.0 when there are no filters
or the record satisfies them all, 0.0 otherwise. -/
def calculateMetadataScore (parseF : String → Option ℚ) (sprintF : ℚ → String)
    (lowerS : String → String) (metadata : String → Option String)
    (filters : List (String × FilterExpr)) : ℝ :=
  if filters.isEmpty then 1.0
  else if Evaluate parseF sprintF lowerS metadata filters then 1.0 else 0.0

/-- The accumulation loop of `memory.Storage.AdvancedSearch`: skip on
dimension mismatch or filter failure, then score, applying the hybrid
weighting when both `Options` and `HybridWeight` are set. -/
noncomputable def advCandidates (parseF : String → Option ℚ) (sprintF : ℚ → String)
    (lowerS : String → String) (vectors : List Vector) (req : AdvancedSearchRequest)
    (queryEmbedding : List ℝ) : List SearchResult :=
  vectors.filterMap fun vector =>
    if vector.embedding.length ≠ queryEmbedding.length then none
    else if !(Evaluate parseF sprintF lowerS vector.metadata req.filters) then none
    else some ⟨vector,
      match req.options with
      | some opts =>
          match opts.hybridWeight with
          | some hw => hw.vector * CosineSimilarity (queryOnly queryEmbedding) vector +
              hw.metadata * calculateMetadataScore parseF sprintF lowerS vector.metadata req.filters
          | none => CosineSimilarity (queryOnly queryEmbedding) vector
      | none => CosineSimilarity (queryOnly queryEmbedding) vector⟩

/-- `memory.Storage.AdvancedSearch`. -/
noncomputable def AdvancedSearch (parseF : String → Option ℚ) (sprintF : ℚ → String)
    (lowerS : String → String) (vectors : List Vector) (req : AdvancedSearchRequest)
    (queryEmbedding : List ℝ) : List SearchResult :=
  rankTruncate SearchResult.score req.topK
    (advCandidates parseF sprintF lowerS vectors req queryEmbedding)

/-- `models.TemporalSearchRequest` (decay strength kept as its Go string). -/
structure TemporalSearchRequest where
  query : String
  topK : Int
  filters : List (String × FilterExpr)
  temporalDecay : String
  referenceTime : Option GoTime
  timeField : String
  options : Option SearchOptions

/-- `models.TemporalConfig`. -/
structure TemporalConfig where
  lambda : ℝ
  referenceTime : GoTime
  timeField : String

/-- `TemporalSearchRequest.GetLambda`. -/
def GetLambda (req : TemporalSearchRequest) : ℝ :=
  match req.temporalDecay with
  | "strong" => 0.5
  | "medium" => 0.1
  | "weak" => 0.01
  | "none" => 0.0
  | _ => 0.0

/-- `TemporalSearchRequest.GetTemporalConfig`; `now` models `time.Now()`. -/
def GetTemporalConfig (req : TemporalSearchRequest) (now : GoTime) : TemporalConfig :=
  { lambda := GetLambda req, timeField := req.timeField,
    referenceTime := req.referenceTime.getD now }

/-- The age of a document in years:
`ReferenceTime.Sub(documentTime).Hours() / (24 * 365.25)`. -/
noncomputable def deltaYears (referenceTime documentTime : GoTime) : ℝ :=
  (((referenceTime - documentTime : ℚ) : ℝ) / 3600) / (24 * 365.25)

/-- `TemporalScorer.ApplyDecay`: multiply the cosine by `exp(-λ·Δt)`,
clamping negative ages to zero; λ = 0 short-circuits. -/
noncomputable def ApplyDecay (config : TemporalConfig) (cosineSim : ℝ)
    (documentTime : GoTime) : ℝ :=
  if config.lambda = 0 then cosineSim
  else
    cosineSim * Real.exp (-config.lambda *
      (if deltaYears config.referenceTime documentTime < 0 then 0
       else deltaYears config.referenceTime documentTime))

/-- `TemporalScorer.GetDecayFactor`. -/
noncomputable def GetDecayFactor (config : TemporalConfig) (documentTime : GoTime) : ℝ :=
  if config.lambda = 0 then 1.0
  else
    Real.exp (-config.lambda *
      (if deltaYears config.referenceTime documentTime < 0 then 0
       else deltaYears config.referenceTime documentTime))

/-- Go `int(r)` on a float64: truncation toward zero. -/
noncomputable def goInt (r : ℝ) : Int :=
  if r < 0 then ⌈r⌉ else ⌊r⌋

/-- `models.CalculateAge`: a human-readable age string. -/
noncomputable def CalculateAge (t reference : GoTime) : String :=
  let hours : ℝ := ((reference - t : ℚ) : ℝ) / 3600
  let years := goInt (hours / (24 * 365.25))
  if years > 0 then
    (if years = 1 then "1 year ago" else toString years ++ " years ago")
  else
    let months := goInt (hours / (24 * 30.44))
    if months > 0 then
      (if months = 1 then "1 month ago" else toString months ++ " months ago")
    else
      let days := goInt (hours / 24)
      if days > 0 then
        (if days = 1 then "1 day ago" else toString days ++ " days ago")
      else
        let hrs := goInt hours
        if hrs > 0 then
          (if hrs = 1 then "1 hour ago" else toString hrs ++ " hours ago")
        else "just now"

/-- `memory.Storage.getDocumentTime`: the configured metadata field when it
parses as RFC3339 (`parseTime` models `time.Parse`), then non-zero
`CreatedAt`, then non-zero `UpdatedAt`, then `time.Now()`. -/
def getDocumentTime (parseTime : String → Option GoTime) (now : GoTime)
    (vector : Vector) (timeField : String) : GoTime :=
  match (vector.metadata timeField).bind parseTime with
  | some t => t
  | none =>
      if vector.createdAt ≠ 0 then vector.createdAt
      else if vector.updatedAt ≠ 0 then vector.updatedAt
      else now

/-- `models.TemporalSearchResult`. -/
structure TemporalSearchResult where
  vector : Vector
  score : ℝ
  baseScore : ℝ
  decayFactor : ℝ
  documentTime : GoTime
  age : String

/-- The accumulation loop of `memory.Storage.TemporalSearch`. -/
noncomputable def temporalCandidates (parseF : String → Option ℚ) (sprintF : ℚ → String)
    (lowerS : String → String) (parseTime : String → Option GoTime)
    (vectors : List Vector) (req : TemporalSearchRequest) (queryEmbedding : List ℝ)
    (now : GoTime) : List TemporalSearchResult :=
  vectors.filterMap fun vector =>
    if vector.embedding.length ≠ queryEmbedding.length then none
    else if req.filters.length > 0
        && !(Evaluate parseF sprintF lowerS vector.metadata req.filters) then none
    else
      let config := GetTemporalConfig req now
      let baseScore := CosineSimilarity (queryOnly queryEmbedding) vector
      let documentTime := getDocumentTime parseTime now vector config.timeField
      some { vector := vector,
             score := ApplyDecay config baseScore documentTime,
             baseScore := baseScore,
             decayFactor := GetDecayFactor config documentTime,
             documentTime := documentTime,
             age := CalculateAge documentTime config.referenceTime }

/-- `memory.Storage.TemporalSearch`: accumulate, sort by final score
descending, truncate to `TopK` when positive. -/
noncomputable def TemporalSearch (parseF : String → Option ℚ) (sprintF : ℚ → String)
    (lowerS : String → String) (parseTime : String → Option GoTime)
    (vectors : List Vector) (req : TemporalSearchRequest) (queryEmbedding : List ℝ)
    (now : GoTime) : List TemporalSearchResult :=
  rankTruncate TemporalSearchResult.score req.topK
    (temporalCandidates parseF sprintF lowerS parseTime vectors req queryEmbedding now)

/-- C1, amended.  Every search variant returns a list sorted by descending
final score, and when the requested `k` is positive the returned length is
`min(k, number of matches)` (for `FilterAndScoreVectors`, `k` is first
defaulted to 10 when non-positive).  The code supplies no id tie-break, so
nothing is claimed about the relative order of equal scores. -/
theorem searchVariants_rank_spec (parseF : String → Option ℚ) (sprintF : ℚ → String)
    (lowerS : String → String) (parseTime : String → Option GoTime) (now : GoTime)
    (vectors : List Vector) (req : SearchRequest) (reqE : SearchByEmbbedingRequest)
    (reqA : AdvancedSearchRequest) (reqT : TemporalSearchRequest) (qe : List ℝ) :
    ((Search vectors req).Pairwise (fun p q => q.score ≤ p.score)
      ∧ (0 < req.limit →
          (Search vectors req).length
            = min req.limit.toNat (searchCandidates vectors req).length))
    ∧ ((FilterAndScoreVectors parseF sprintF vectors reqE).Pairwise
          (fun p q => q.score ≤ p.score)
      ∧ (FilterAndScoreVectors parseF sprintF vectors reqE).length
          = min (if reqE.topK ≤ 0 then (10 : Int) else reqE.topK).toNat
              (fasCandidates parseF sprintF vectors reqE).length)
    ∧ ((AdvancedSearch parseF sprintF lowerS vectors reqA qe).Pairwise
          (fun p q => q.score ≤ p.score)
      ∧ (0 < reqA.topK →
          (AdvancedSearch parseF sprintF lowerS vectors reqA qe).length
            = min reqA.topK.toNat (advCandidates parseF sprintF lowerS vectors reqA qe).length))
    ∧ ((TemporalSearch parseF sprintF lowerS parseTime vectors reqT qe now).Pairwise
          (fun p q => q.score ≤ p.score)
      ∧ (0 < reqT.topK →
          (TemporalSearch parseF sprintF lowerS parseTime vectors reqT qe now).length
            = min reqT.topK.toNat
                (temporalCandidates parseF sprintF lowerS parseTime vectors reqT qe now).length)) := by
  refine ⟨⟨?_, ?_⟩, ⟨?_, ?_⟩, ⟨?_, ?_⟩, ⟨?_, ?_⟩⟩
  · exact rankTruncate_sorted _ _ _
  · intro hk
    exact rankTruncate_length _ _ _ hk
  · exact sortTruncDefault_sorted _ _ _
  · refine sortTruncDefault_length _ _ _ ?_
    split <;> omega
  · exact rankTruncate_sorted _ _ _
  · intro hk
    exact rankTruncate_length _ _ _ hk
  · exact rankTruncate_sorted _ _ _
  · intro hk
    exact rankTruncate_length _ _ _ hk

/-- Concrete instantiation of `searchVariants_rank_spec` on an empty store
with `k = 1` everywhere. -/
theorem searchVariants_rank_spec_witness :
    (0 : Int) < 1
    ∧ (Search [] ⟨[], 1, none⟩).length = min (1 : Int).toNat (searchCandidates [] ⟨[], 1, none⟩).length
    ∧ (AdvancedSearch (fun _ => none) (fun _ => "") id [] ⟨"q", 1, [], none⟩ []).length
        = min (1 : Int).toNat
            (advCandidates (fun _ => none) (fun _ => "") id [] ⟨"q", 1, [], none⟩ []).length
    ∧ (TemporalSearch (fun _ => none) (fun _ => "") id (fun _ => none)
          [] ⟨"q", 1, [], "none", none, "created_at", none⟩ [] 0).length
        = min (1 : Int).toNat
            (temporalCandidates (fun _ => none) (fun _ => "") id (fun _ => none)
              [] ⟨"q", 1, [], "none", none, "created_at", none⟩ [] 0).length := by
  have h := searchVariants_rank_spec (fun _ => none) (fun _ => "") id (fun _ => none) 0
    [] ⟨[], 1, none⟩ ⟨[], 1, none, []⟩ ⟨"q", 1, [], none⟩
    ⟨"q", 1, [], "none", none, "created_at", none⟩ []
  exact ⟨by norm_num, h.1.2 (by norm_num), h.2.2.1.2 (by norm_num), h.2.2.2.2 (by norm_num)⟩

/-- The parse and print parameters used by the concrete search scenarios:
nothing parses as a float and floats are never printed, which is immaterial
to the operators these scenarios use. -/
def pF0 : String → Option ℚ := fun _ => none

/-- Float printing parameter for the concrete scenarios. -/
def sF0 : ℚ → String := fun _ => ""

/-- Tie-break scenario, first record: id `"z"`, embedding `[0, 1]`. -/
def vzC1 : Vector := ⟨"z", [0, 1], fun _ => none, 0, 0⟩

/-- Tie-break scenario, second record: id `"a"`, embedding `[0, 1]`. -/
def vaC1 : Vector := ⟨"a", [0, 1], fun _ => none, 0, 0⟩

/-- Tie-break scenario request: query `[1, 0]`, `TopK` 10, no filters. -/
def reqC1 : SearchByEmbbedingRequest := ⟨[1, 0], 10, none, []⟩

lemma cosine_q10_orth (v : Vector) (hv : v.embedding = [0, 1]) :
    CosineSimilarity (queryOnly [1, 0]) v = 0 := by
  rw [cosine_eq_div (queryOnly [1, 0]) v (by simp [queryOnly, hv])
    (by norm_num [dotSum, queryOnly]) (by norm_num [dotSum, hv])]
  norm_num [dotSum, queryOnly, hv]

/-- C1 counterexample.  With two equal-scored records snapshotted in the
order `z` before `a`, `FilterAndScoreVectors` returns them in that order:
ties are not re-ordered by ascending id, so the output order depends on the
map iteration order and the claimed ordering fails. -/
theorem fasv_tie_not_ascending_id :
    (FilterAndScoreVectors pF0 sF0 [vzC1, vaC1] reqC1).map (fun r => r.vector.id) = ["z", "a"]
    ∧ (FilterAndScoreVectors pF0 sF0 [vzC1, vaC1] reqC1).map SearchResult.score = [0, 0]
    ∧ ¬ ((FilterAndScoreVectors pF0 sF0 [vzC1, vaC1] reqC1).Pairwise
          (fun p q => q.score < p.score ∨ (p.score = q.score ∧ p.vector.id ≤ q.vector.id))) := by
  have hz : CosineSimilarity (queryOnly [1, 0])
      ⟨"z", [0, 1], fun _ => none, 0, 0⟩ = 0 := cosine_q10_orth _ rfl
  have ha : CosineSimilarity (queryOnly [1, 0])
      ⟨"a", [0, 1], fun _ => none, 0, 0⟩ = 0 := cosine_q10_orth _ rfl
  have hcand : fasCandidates pF0 sF0 [vzC1, vaC1] reqC1 = [⟨vzC1, 0⟩, ⟨vaC1, 0⟩] := by
    simp only [fasCandidates, reqC1, List.filterMap, vzC1, vaC1]
    norm_num [hz, ha]
  have hsort : sortByScoreDesc SearchResult.score [(⟨vzC1, 0⟩ : SearchResult), ⟨vaC1, 0⟩]
      = [⟨vzC1, 0⟩, ⟨vaC1, 0⟩] := by
    unfold sortByScoreDesc
    simp only [List.insertionSort, List.orderedInsert]
    rw [if_pos (le_refl (0 : ℝ))]
  have hout : FilterAndScoreVectors pF0 sF0 [vzC1, vaC1] reqC1 = [⟨vzC1, 0⟩, ⟨vaC1, 0⟩] := by
    unfold FilterAndScoreVectors sortTruncDefault
    rw [hcand, hsort]
    norm_num [reqC1]
  refine ⟨by rw [hout]; simp [vzC1, vaC1], by rw [hout]; simp, ?_⟩
  rw [hout]
  intro hpw
  have hrel := (List.pairwise_cons.1 hpw).1 ⟨vaC1, 0⟩ (by simp)
  rcases hrel with hlt | ⟨_, hle⟩
  · exact absurd hlt (lt_irrefl _)
  · revert hle
    simp only [vzC1, vaC1]
    rw [String.le_iff_toList_le]
    decide

/-- Hybrid scenario, matching record: author Einstein, embedding `[4, 3]`
(cosine 0.8 against the query `[1, 0]`). -/
def vmC2 : Vector :=
  ⟨"m", [4, 3], fun k => if k = "author" then some "Einstein" else none, 0, 0⟩

/-- Hybrid scenario, non-matching record: author Newton, same embedding. -/
def vnC2 : Vector :=
  ⟨"n", [4, 3], fun k => if k = "author" then some "Newton" else none, 0, 0⟩

/-- Hybrid scenario request: filter `author eq Einstein`, hybrid weights
vector 0.5 / metadata 0.5. -/
def reqC2 : AdvancedSearchRequest :=
  ⟨"relativity", 10, [("author", [("eq", GoVal.str "Einstein")])],
    some ⟨some ⟨0.5, 0.5⟩⟩⟩

lemma cosine_q10_43 (v : Vector) (hv : v.embedding = [4, 3]) :
    CosineSimilarity (queryOnly [1, 0]) v = 0.8 := by
  rw [cosine_eq_div (queryOnly [1, 0]) v (by simp [queryOnly, hv])
    (by norm_num [dotSum, queryOnly]) (by norm_num [dotSum, hv])]
  have h25 : dotSum v.embedding v.embedding = 25 := by norm_num [dotSum, hv]
  have h1 : dotSum (queryOnly [1, 0]).embedding (queryOnly [1, 0]).embedding = 1 := by
    norm_num [dotSum, queryOnly]
  have h4 : dotSum (queryOnly [1, 0]).embedding v.embedding = 4 := by
    norm_num [dotSum, queryOnly, hv]
  rw [h25, h1, h4, Real.sqrt_one, show (25 : ℝ) = 5 ^ 2 by norm_num,
    Real.sqrt_sq (by norm_num : (0 : ℝ) ≤ 5)]
  norm_num

lemma calculateMetadataScore_of_eval (parseF : String → Option ℚ) (sprintF : ℚ → String)
    (lowerS : String → String) (metadata : String → Option String)
    (filters : List (String × FilterExpr))
    (h : Evaluate parseF sprintF lowerS metadata filters = true) :
    calculateMetadataScore parseF sprintF lowerS metadata filters = 1 := by
  norm_num [calculateMetadataScore, h]

lemma advOutC2 :
    AdvancedSearch pF0 sF0 id [vmC2, vnC2] reqC2 [1, 0] = [⟨vmC2, 0.9⟩] := by
  have hm : Evaluate pF0 sF0 id vmC2.metadata reqC2.filters = true := by decide
  have hmb : (!Evaluate pF0 sF0 id vmC2.metadata reqC2.filters) = false := by decide
  have hnb : (!Evaluate pF0 sF0 id vnC2.metadata reqC2.filters) = true := by decide
  have hcosm : CosineSimilarity (queryOnly [1, 0]) vmC2 = 0.8 := cosine_q10_43 _ rfl
  have hcms := calculateMetadataScore_of_eval pF0 sF0 id vmC2.metadata reqC2.filters hm
  have hopt : reqC2.options = some ⟨some ⟨0.5, 0.5⟩⟩ := rfl
  have hlm : vmC2.embedding.length = 2 := rfl
  have hln : vnC2.embedding.length = 2 := rfl
  have hcand : advCandidates pF0 sF0 id [vmC2, vnC2] reqC2 [1, 0] = [⟨vmC2, 0.9⟩] := by
    simp only [advCandidates, List.filterMap_cons, List.filterMap_nil, hmb, hnb, hopt,
      hlm, hln, List.length_cons, List.length_nil, List.length_singleton]
    norm_num [hcosm, hcms]
  unfold AdvancedSearch rankTruncate
  rw [hcand]
  have hsingle : sortByScoreDesc SearchResult.score [(⟨vmC2, 0.9⟩ : SearchResult)]
      = [⟨vmC2, 0.9⟩] := by
    unfold sortByScoreDesc
    simp [List.insertionSort, List.orderedInsert]
  rw [hsingle]
  rw [if_neg (by norm_num [reqC2])]

/-- C2, amended.  With hybrid weights set, records failing the filters are
excluded from the candidate set before scoring, so the metadata score of
every returned record is 1 and its final score is
`w_v * cosine + w_m * 1`; in the two-record scenario with cosine 0.8 and
weights 0.5/0.5, the matching record is returned with final score 0.9 and
ranks first, while the non-matching record is absent (it never receives the
score 0.4). -/
theorem advancedSearch_hybrid_spec (parseF : String → Option ℚ) (sprintF : ℚ → String)
    (lowerS : String → String) (vectors : List Vector) (req : AdvancedSearchRequest)
    (qe : List ℝ) (hw : HybridWeight) (hopt : req.options = some ⟨some hw⟩) :
    (∀ r ∈ AdvancedSearch parseF sprintF lowerS vectors req qe,
      Evaluate parseF sprintF lowerS r.vector.metadata req.filters = true
      ∧ calculateMetadataScore parseF sprintF lowerS r.vector.metadata req.filters = 1
      ∧ r.score = hw.vector * CosineSimilarity (queryOnly qe) r.vector + hw.metadata * 1)
    ∧ AdvancedSearch pF0 sF0 id [vmC2, vnC2] reqC2 [1, 0] = [⟨vmC2, 0.9⟩] := by
  refine ⟨?_, advOutC2⟩
  intro r hr
  have hr' : r ∈ advCandidates parseF sprintF lowerS vectors req qe :=
    rankTruncate_subset _ _ _ _ hr
  rw [advCandidates, List.mem_filterMap] at hr'
  obtain ⟨vector, _, hsome⟩ := hr'
  split at hsome
  · exact absurd hsome (by simp)
  · split at hsome
    · exact absurd hsome (by simp)
    · rename_i hEvalNeg
      have hEval : Evaluate parseF sprintF lowerS vector.metadata req.filters = true := by
        revert hEvalNeg
        cases Evaluate parseF sprintF lowerS vector.metadata req.filters <;> simp
      rw [hopt] at hsome
      have hcms := calculateMetadataScore_of_eval parseF sprintF lowerS
        vector.metadata req.filters hEval
      injection hsome with hsome
      subst hsome
      refine ⟨hEval, hcms, ?_⟩
      show hw.vector * CosineSimilarity (queryOnly qe) vector +
          hw.metadata * calculateMetadataScore parseF sprintF lowerS vector.metadata req.filters
        = hw.vector * CosineSimilarity (queryOnly qe) vector + hw.metadata * 1
      rw [hcms]

/-- Concrete instantiation of `advancedSearch_hybrid_spec` on the scenario
input: the hybrid-weight hypothesis holds by `rfl` and every returned record
satisfies the filters with metadata score 1. -/
theorem advancedSearch_hybrid_spec_witness :
    reqC2.options = some ⟨some ⟨(0.5 : ℝ), 0.5⟩⟩
    ∧ (∀ r ∈ AdvancedSearch pF0 sF0 id [vmC2, vnC2] reqC2 [1, 0],
        Evaluate pF0 sF0 id r.vector.metadata reqC2.filters = true) := by
  have h := advancedSearch_hybrid_spec pF0 sF0 id [vmC2, vnC2] reqC2 [1, 0]
    ⟨0.5, 0.5⟩ rfl
  exact ⟨rfl, fun r hr => (h.1 r hr).1⟩

/-- C2 counterexample.  In the claimed scenario the non-matching record is
filtered out before hybrid scoring: the result is exactly the matching
record with score 0.9, and no returned record is the non-matching one, so
the non-matching record never receives the claimed final score 0.4. -/
theorem advancedSearch_nonmatching_excluded :
    (AdvancedSearch pF0 sF0 id [vmC2, vnC2] reqC2 [1, 0]).map
        (fun r => (r.vector.id, r.score)) = [("m", 0.9)]
    ∧ ∀ r ∈ AdvancedSearch pF0 sF0 id [vmC2, vnC2] reqC2 [1, 0], r.vector.id ≠ "n" := by
  rw [advOutC2]
  constructor
  · simp [vmC2]
  · intro r hr
    rw [List.mem_singleton] at hr
    subst hr
    simp [vmC2]

/-- The vectors map of `memory.Storage`, keyed by id. -/
def StoreMap := String → Option Vector

/-- A fresh `memory.NewStorage()` map. -/
def emptyStore : StoreMap := fun _ => none

/-- `memory.Storage.Store`: empty id is rejected; an existing id gets only
`UpdatedAt` bumped on the incoming record (its `CreatedAt` is whatever the
caller supplied); a new id gets both timestamps set to now; the map entry is
replaced by the incoming record. -/
def Store (vectors : StoreMap) (vector : Vector) (now : GoTime) : Except String StoreMap :=
  if vector.id = "" then .error "vector ID cannot be empty"
  else
    match vectors vector.id with
    | some _ => .ok (fun k =>
        if k = vector.id then some { vector with updatedAt := now } else vectors k)
    | none => .ok (fun k =>
        if k = vector.id then some { vector with createdAt := now, updatedAt := now }
        else vectors k)

/-- `memory.Storage.Delete`: missing id is an error, a present id is removed. -/
def Delete (vectors : StoreMap) (id : String) : Except String StoreMap :=
  match vectors id with
  | none => .error ("vector with ID " ++ id ++ " not found")
  | some _ => .ok (fun k => if k = id then none else vectors k)

/-- C3, amended.  `Store` with a non-empty id succeeds; when the id already
exists the stored entry is the incoming record with only `updated_at` set to
now, so its `created_at` is the one the caller supplied on this call (hence
re-storing the exact record previously stored preserves `created_at`, but a
fresh record object with the same id overwrites it); when the id is new both
timestamps are set to now; the id field is never replaced; other keys are
untouched; an empty id is rejected. -/
theorem store_timestamps_spec (m : StoreMap) (v : Vector) (now : GoTime)
    (hid : v.id ≠ "") :
    (∃ m', Store m v now = .ok m'
      ∧ ((m v.id).isSome → m' v.id = some { v with updatedAt := now })
      ∧ ((m v.id).isSome → (m' v.id).map Vector.createdAt = some v.createdAt)
      ∧ (m v.id = none → m' v.id = some { v with createdAt := now, updatedAt := now })
      ∧ (m' v.id).map Vector.id = some v.id
      ∧ (∀ k, k ≠ v.id → m' k = m k))
    ∧ (∀ w : Vector, w.id = "" → Store m w now = .error "vector ID cannot be empty") := by
  constructor
  · unfold Store
    rw [if_neg hid]
    cases hmv : m v.id with
    | some w =>
        refine ⟨_, rfl, fun _ => ?_, fun _ => ?_, fun habs => ?_, ?_, fun k hk => ?_⟩
        · rw [if_pos rfl]
        · rw [if_pos rfl]
          rfl
        · exact absurd habs (by simp)
        · rw [if_pos rfl]
          rfl
        · rw [if_neg hk]
    | none =>
        refine ⟨_, rfl, fun habs => ?_, fun habs => ?_, fun _ => ?_, ?_, fun k hk => ?_⟩
        · exact absurd habs (by simp)
        · exact absurd habs (by simp)
        · rw [if_pos rfl]
        · rw [if_pos rfl]
          rfl
        · rw [if_neg hk]
  · intro w hw
    unfold Store
    rw [if_pos hw]

/-- Concrete instantiation of `store_timestamps_spec`: first store of id
`"a"` at time 3 sets both timestamps to 3. -/
theorem store_timestamps_spec_witness :
    ("a" : String) ≠ ""
    ∧ ∃ m', Store emptyStore ⟨"a", [], fun _ => none, 5, 7⟩ 3 = .ok m'
        ∧ m' "a" = some ⟨"a", [], fun _ => none, 3, 3⟩ := by
  have h := store_timestamps_spec emptyStore ⟨"a", [], fun _ => none, 5, 7⟩ 3 (by decide)
  obtain ⟨m', hok, _, _, hnew, _, _⟩ := h.1
  exact ⟨by decide, m', hok, hnew rfl⟩

/-- First store of the tie scenario for `created_at` preservation. -/
def c3v1 : Vector := ⟨"a", [], fun _ => none, 0, 0⟩

/-- Re-store of id `"a"` through a fresh record object carrying
`created_at = 5`. -/
def c3v2 : Vector := ⟨"a", [], fun _ => none, 5, 0⟩

/-- Extract the map of a successful `Store`, defaulting to the empty map. -/
def getOk : Except String StoreMap → StoreMap
  | .ok m => m
  | .error _ => emptyStore

/-- Whether a store operation succeeded. -/
def isOkE : Except String StoreMap → Bool
  | .ok _ => true
  | .error _ => false

/-- The store state after the first store of `"a"` at time 1. -/
def c3m1 : StoreMap := getOk (Store emptyStore c3v1 1)

/-- The store state after re-storing `"a"` through `c3v2` at time 2. -/
def c3m2 : StoreMap := getOk (Store c3m1 c3v2 2)

/-- C3 counterexample.  Id `"a"` is first stored at time 1, establishing
`created_at = 1`; re-storing the same id through a fresh record object with
`created_at = 5` succeeds and leaves `created_at = 5` in the store: the
originally established value is not preserved. -/
theorem store_createdAt_not_preserved :
    isOkE (Store emptyStore c3v1 1) = true
    ∧ isOkE (Store c3m1 c3v2 2) = true
    ∧ (c3m1 "a").map Vector.createdAt = some 1
    ∧ (c3m2 "a").map Vector.createdAt = some 5
    ∧ (5 : GoTime) ≠ 1 := by
  refine ⟨rfl, rfl, rfl, rfl, by norm_num⟩

/-- Association-list model of a Go map whose size is observed (`len`). -/
def lookupA {β : Type} : List (String × β) → String → Option β
  | [], _ => none
  | kv :: rest, k => if kv.1 == k then some kv.2 else lookupA rest k

/-- Go map assignment: replace the existing entry or append a new one. -/
def updateA {β : Type} : List (String × β) → String → β → List (String × β)
  | [], k, v => [(k, v)]
  | kv :: rest, k, v => if kv.1 == k then (k, v) :: rest else kv :: updateA rest k v

/-- Go map `delete`. -/
def removeA {β : Type} : List (String × β) → String → List (String × β)
  | [], _ => []
  | kv :: rest, k => if kv.1 == k then removeA rest k else kv :: removeA rest k

lemma lookupA_updateA {β : Type} (l : List (String × β)) (k : String) (v : β) :
    lookupA (updateA l k v) k = some v := by
  induction l with
  | nil => simp [lookupA, updateA]
  | cons kv rest ih =>
      unfold updateA
      split
      · simp [lookupA]
      · rename_i hne
        unfold lookupA
        rw [if_neg hne]
        exact ih

/-- `local.TextContent`. -/
structure TextContent where
  raw : String
  language : String
  format : String

/-- `local.ImageContent`. -/
structure ImageContent where
  format : String
  width : Int
  height : Int
  size : Int
  path : String
  thumbnail : String
  colorSpace : String

/-- `local.AudioContent`. -/
structure AudioContent where
  format : String
  duration : ℝ
  sampleRate : Int
  bitrate : Int
  size : Int
  path : String

/-- `local.VideoContent`. -/
structure VideoContent where
  format : String
  duration : ℝ
  width : Int
  height : Int
  frameRate : ℝ
  size : Int
  path : String
  thumbnail : String

/-- `local.BinaryContent`. -/
structure BinaryContent where
  format : String
  size : Int
  path : String
  checksum : String
  compression : String

/-- `local.ContentReference`. -/
structure ContentReference where
  type : String
  uri : String

/-- `local.ContentData`. -/
structure ContentData where
  type : String
  text : Option TextContent
  image : Option ImageContent
  audio : Option AudioContent
  video : Option VideoContent
  binary : Option BinaryContent
  references : List ContentReference
  properties : List (String × GoVal)

/-- `local.EmbeddingData`. -/
structure EmbeddingData where
  vector : List ℝ
  dimension : Int
  model : String
  createdAt : GoTime
  metadata : List (String × String)
  path : String

/-- `local.Relation`. -/
structure Relation where
  type : String
  documentID : String
  metadata : List (String × GoVal)

/-- `local.Document`. -/
structure Document where
  id : String
  collectionID : String
  type : String
  createdAt : GoTime
  updatedAt : GoTime
  version : Int
  metadata : List (String × GoVal)
  content : Option ContentData
  embedding : Option EmbeddingData
  relations : List Relation
  tags : List String

/-- `local.FieldDefinition`. -/
structure FieldDefinition where
  type : String
  description : String
  indexed : Bool
  unique : Bool
  enum : List String

/-- `local.Index`. -/
structure Index where
  name : String
  fields : List String
  unique : Bool

/-- `local.VectorConfig`. -/
structure VectorConfig where
  dimension : Int
  embedderType : String
  metric : String

/-- `local.CollectionSchema`. -/
structure CollectionSchema where
  fields : List (String × FieldDefinition)
  required : List String
  indexes : List Index
  vectorConfig : Option VectorConfig

/-- `local.CollectionStats`. -/
structure CollectionStats where
  documentCount : Int
  totalSize : Int
  lastUpdated : GoTime

/-- `local.Collection`. -/
structure Collection where
  id : String
  name : String
  description : String
  createdAt : GoTime
  updatedAt : GoTime
  schema : Option CollectionSchema
  documents : List (String × Document)
  stats : CollectionStats

/-- `local.StorageMetadata`. -/
structure StorageMetadata where
  name : String
  description : String
  tags : List String
  properties : List (String × String)

/-- `local.StorageSchema`. -/
structure StorageSchema where
  version : String
  createdAt : GoTime
  updatedAt : GoTime
  metadata : StorageMetadata
  collections : List (String × Collection)

/-- The state of a `local.LocalStorage`: the in-memory schema, the on-disk
copy of `metadata.json` (`persisted`), and the document and embedding files
keyed by path. -/
structure LocalState where
  basePath : String
  schema : StorageSchema
  persisted : StorageSchema
  docFiles : List (String × Document)
  embFiles : List (String × EmbeddingData)

/-- `LocalStorage.getDocumentPath`. -/
def getDocumentPath (basePath collectionName docID : String) : String :=
  basePath ++ "/collections/" ++ collectionName ++ "/" ++ docID ++ ".json"

/-- `LocalStorage.getEmbeddingPath`. -/
def getEmbeddingPath (basePath collectionName docID : String) : String :=
  basePath ++ "/embeddings/" ++ collectionName ++ "/" ++ docID ++ ".json"

/-- `LocalStorage.getContentPath`. -/
def getContentPath (basePath collectionName docID contentType : String) : String :=
  basePath ++ "/content/" ++ collectionName ++ "/" ++ docID ++ "/" ++ contentType

/-- `LocalStorage.saveContent`: fills in empty content paths; never fails. -/
def saveContent (basePath collectionName docID : String) :
    Option ContentData → Option ContentData
  | none => none
  | some c => some { c with
      image := c.image.map fun ic =>
        if ic.path = "" then { ic with path := getContentPath basePath collectionName docID "image" } else ic,
      audio := c.audio.map fun ac =>
        if ac.path = "" then { ac with path := getContentPath basePath collectionName docID "audio" } else ac,
      video := c.video.map fun vc =>
        if vc.path = "" then { vc with path := getContentPath basePath collectionName docID "video" } else vc,
      binary := c.binary.map fun bc =>
        if bc.path = "" then { bc with path := getContentPath basePath collectionName docID "binary" } else bc }

/-- `LocalStorage.saveSchema`: bumps the in-memory `UpdatedAt`, then writes
`metadata.json`; on write failure the in-memory bump has already happened
and the persisted copy is untouched.  `ok` is the file-system oracle. -/
def saveSchema (st : LocalState) (now : GoTime) (ok : Bool) : LocalState × Option String :=
  if ok then
    ({ st with schema := { st.schema with updatedAt := now },
               persisted := { st.schema with updatedAt := now } }, none)
  else
    ({ st with schema := { st.schema with updatedAt := now } }, some "storage_io")

/-- The success/failure oracle for the three file writes `StoreDocument`
performs (document JSON, embedding JSON, schema JSON). -/
structure IOOracle where
  docWriteOk : Bool
  embWriteOk : Bool
  schemaWriteOk : Bool

/-- The tail of `StoreDocument` after the document and embedding writes:
`saveContent` mutates the shared document object (so the map entry sees the
new content paths), then `saveSchema` runs under the same lock. -/
def finishStore (st : LocalState) (collectionName : String) (collection1 : Collection)
    (docFinal : Document) (basePath : String) (now : GoTime) (schemaOk : Bool) :
    LocalState × Option String :=
  saveSchema
    { st with
      schema := { st.schema with
        collections := updateA st.schema.collections collectionName
          { collection1 with
            documents := updateA collection1.documents docFinal.id
              { docFinal with
                content := saveContent basePath collectionName docFinal.id docFinal.content } } } }
    now schemaOk

/-- The file-writing phase of `StoreDocument`: document JSON, then the
embedding side file (when present and non-empty, clearing the inline vector
and recording the path on the shared document object), then content and
schema. -/
def StoreDocumentWrites (st1 : LocalState) (collectionName : String) (doc1 : Document)
    (collection1 : Collection) (now : GoTime) (io : IOOracle) (basePath : String) :
    LocalState × Option String :=
  if io.docWriteOk = false then (st1, some "storage_io")
  else
    match doc1.embedding with
    | some emb =>
        if emb.vector.length > 0 then
          if io.embWriteOk = false then
            ({ st1 with
                docFiles := updateA st1.docFiles
                  (getDocumentPath basePath collectionName doc1.id) doc1 },
             some "storage_io")
          else
            finishStore
              { st1 with
                docFiles := updateA st1.docFiles
                  (getDocumentPath basePath collectionName doc1.id) doc1,
                embFiles := updateA st1.embFiles
                  (getEmbeddingPath basePath collectionName doc1.id) emb }
              collectionName collection1
              { doc1 with
                embedding := some { emb with
                  path := getEmbeddingPath basePath collectionName doc1.id, vector := [] } }
              basePath now io.schemaWriteOk
        else
          finishStore
            { st1 with
              docFiles := updateA st1.docFiles
                (getDocumentPath basePath collectionName doc1.id) doc1 }
            collectionName collection1 doc1 basePath now io.schemaWriteOk
    | none =>
        finishStore
          { st1 with
            docFiles := updateA st1.docFiles
              (getDocumentPath basePath collectionName doc1.id) doc1 }
          collectionName collection1 doc1 basePath now io.schemaWriteOk

/-- The body of `StoreDocument` after the collection lookup and the
timestamp/version mutation of the incoming document. -/
def StoreDocumentBody (st : LocalState) (collectionName : String) (doc1 : Document)
    (collection : Collection) (now : GoTime) (io : IOOracle) : LocalState × Option String :=
  StoreDocumentWrites
    { st with
      schema := { st.schema with
        collections := updateA st.schema.collections collectionName
          { collection with
            documents := updateA collection.documents doc1.id doc1,
            stats := { collection.stats with
              documentCount := (updateA collection.documents doc1.id doc1).length,
              lastUpdated := now },
            updatedAt := now } } }
    collectionName doc1
    { collection with
      documents := updateA collection.documents doc1.id doc1,
      stats := { collection.stats with
        documentCount := (updateA collection.documents doc1.id doc1).length,
        lastUpdated := now },
      updatedAt := now }
    now io st.basePath

/-- `LocalStorage.StoreDocument`.  The in-memory document map and stats are
updated before any file write; a document- or embedding-write failure
returns `storage_io` with those in-memory updates already applied and the
persisted schema untouched; on success the embedding, when non-empty, is
written to its side file, the inline vector is cleared and replaced by the
file path, content paths are filled in, and the schema is persisted. -/
def StoreDocument (st : LocalState) (collectionName : String) (doc : Document)
    (now : GoTime) (io : IOOracle) : LocalState × Option String :=
  match lookupA st.schema.collections collectionName with
  | none => (st, some ("collection " ++ collectionName ++ " not found"))
  | some collection =>
      StoreDocumentBody st collectionName
        { doc with
          createdAt := if doc.createdAt = 0 then now else doc.createdAt,
          updatedAt := now,
          collectionID := collectionName,
          version := doc.version + 1 }
        collection now io

/-- `LocalStorage.DeleteDocument`: looks up only the collection (never the
document id), removes the map entry, the document file, and the embedding
file unconditionally, updates stats, and persists the schema. -/
def DeleteDocument (st : LocalState) (collectionName docID : String) (now : GoTime)
    (schemaOk : Bool) : LocalState × Option String :=
  match lookupA st.schema.collections collectionName with
  | none => (st, some ("collection " ++ collectionName ++ " not found"))
  | some collection =>
      saveSchema
        { st with
          schema := { st.schema with
            collections := updateA st.schema.collections collectionName
              { collection with
                documents := removeA collection.documents docID,
                stats := { collection.stats with
                  documentCount := (removeA collection.documents docID).length,
                  lastUpdated := now } } },
          docFiles := removeA st.docFiles (getDocumentPath st.basePath collectionName docID),
          embFiles := removeA st.embFiles (getEmbeddingPath st.basePath collectionName docID) }
        now schemaOk

/-- A document as found through the in-memory collection map. -/
def docLookup (st : LocalState) (collectionName docID : String) : Option Document :=
  (lookupA st.schema.collections collectionName).bind fun c => lookupA c.documents docID

/-- An empty collection named `"c"` for the concrete persistent-store
scenarios. -/
def emptyColl : Collection := ⟨"c", "c", "", 0, 0, none, [], ⟨0, 0, 0⟩⟩

/-- The storage schema holding only the empty collection `"c"`. -/
def schemaC : StorageSchema := ⟨"1.0.0", 0, 0, ⟨"s", "", [], []⟩, [("c", emptyColl)]⟩

/-- A freshly-opened local store over `schemaC`. -/
def stC7 : LocalState := ⟨"base", schemaC, schemaC, [], []⟩

/-- C7, amended.  The in-memory store's `Delete` behaves as claimed: a
present id is removed with `ok` and a missing id yields `not_found`.  The
persistent store's `DeleteDocument`, however, checks only the collection:
a missing collection yields `not_found`, but when the collection exists the
call returns `ok` even if no document with that id exists. -/
theorem delete_spec (m : StoreMap) (id : String) (st : LocalState)
    (collName docID : String) (now : GoTime) :
    (m id = none → Delete m id = .error ("vector with ID " ++ id ++ " not found"))
    ∧ ((m id).isSome →
        ∃ m', Delete m id = .ok m' ∧ m' id = none ∧ ∀ k, k ≠ id → m' k = m k)
    ∧ (lookupA st.schema.collections collName = none →
        DeleteDocument st collName docID now true
          = (st, some ("collection " ++ collName ++ " not found")))
    ∧ (∀ collection, lookupA st.schema.collections collName = some collection →
        (DeleteDocument st collName docID now true).2 = none) := by
  refine ⟨?_, ?_, ?_, ?_⟩
  · intro h
    unfold Delete
    rw [h]
  · intro h
    cases hmv : m id with
    | none =>
        rw [hmv] at h
        exact absurd h (by simp)
    | some w =>
        refine ⟨fun k => if k = id then none else m k, ?_, by simp, fun k hk => by simp [hk]⟩
        unfold Delete
        rw [hmv]
  · intro h
    unfold DeleteDocument
    rw [h]
  · intro collection h
    unfold DeleteDocument
    rw [h]
    rfl

/-- A one-record memory store holding id `"x"`. -/
def c7m : StoreMap := fun k => if k = "x" then some ⟨"x", [], fun _ => none, 0, 0⟩ else none

/-- Concrete instantiation of `delete_spec`: deleting the present `"x"`
succeeds and removes it, deleting the absent `"y"` errors, and the
persistent store answers `ok` for a missing document id in an existing
collection. -/
theorem delete_spec_witness :
    (c7m "x").isSome = true
    ∧ (∃ m', Delete c7m "x" = .ok m' ∧ m' "x" = none)
    ∧ c7m "y" = none
    ∧ Delete c7m "y" = .error ("vector with ID " ++ "y" ++ " not found")
    ∧ lookupA stC7.schema.collections "c" = some emptyColl
    ∧ (DeleteDocument stC7 "c" "missing" 0 true).2 = none := by
  have hx := (delete_spec c7m "x" stC7 "c" "missing" 0).2.1 rfl
  have hy := (delete_spec c7m "y" stC7 "c" "missing" 0).1 rfl
  have hp := (delete_spec c7m "x" stC7 "c" "missing" 0).2.2.2 emptyColl rfl
  obtain ⟨m', hok, hnone, _⟩ := hx
  exact ⟨rfl, ⟨m', hok, hnone⟩, rfl, hy, rfl, hp⟩

/-- C7 counterexample.  Collection `"c"` exists but holds no document
`"missing"`; `DeleteDocument` still reports success (`ok`), not
`not_found`. -/
theorem deleteDocument_missing_id_ok :
    docLookup stC7 "c" "missing" = none
    ∧ (DeleteDocument stC7 "c" "missing" 0 true).2 = none :=
  ⟨rfl, rfl⟩

lemma storeDocumentWrites_fail (st1 : LocalState) (collectionName : String)
    (doc1 : Document) (collection1 : Collection) (now : GoTime) (io : IOOracle)
    (basePath : String)
    (hfail : io.docWriteOk = false
      ∨ (io.embWriteOk = false ∧ ∃ emb, doc1.embedding = some emb ∧ 0 < emb.vector.length)) :
    (StoreDocumentWrites st1 collectionName doc1 collection1 now io basePath).2
        = some "storage_io"
    ∧ (StoreDocumentWrites st1 collectionName doc1 collection1 now io basePath).1.schema
        = st1.schema
    ∧ (StoreDocumentWrites st1 collectionName doc1 collection1 now io basePath).1.persisted
        = st1.persisted := by
  unfold StoreDocumentWrites
  by_cases hdw : io.docWriteOk = false
  · rw [if_pos hdw]
    exact ⟨rfl, rfl, rfl⟩
  · rw [if_neg hdw]
    rcases hfail with h | ⟨hew, emb, hemb, hlen⟩
    · exact absurd h hdw
    · simp only [hemb]
      rw [if_pos (show emb.vector.length > 0 from hlen), if_pos hew]
      exact ⟨rfl, rfl, rfl⟩

/-- C6, amended.  When the document write or the embedding write fails
during `StoreDocument` on an existing collection, the call aborts with
`storage_io` and the persisted schema is untouched, but the in-memory
updates have already happened: the collection's document map now contains
the stored document (timestamps and version bumped) and the collection
stats carry the new `lastUpdated`. -/
theorem storeDocument_write_failure_spec (st : LocalState) (collName : String)
    (doc : Document) (now : GoTime) (io : IOOracle) (collection : Collection)
    (hcoll : lookupA st.schema.collections collName = some collection)
    (hfail : io.docWriteOk = false
      ∨ (io.embWriteOk = false ∧ ∃ emb, doc.embedding = some emb ∧ 0 < emb.vector.length)) :
    (StoreDocument st collName doc now io).2 = some "storage_io"
    ∧ (StoreDocument st collName doc now io).1.persisted = st.persisted
    ∧ docLookup (StoreDocument st collName doc now io).1 collName doc.id
        = some { doc with
            createdAt := if doc.createdAt = 0 then now else doc.createdAt,
            updatedAt := now, collectionID := collName, version := doc.version + 1 }
    ∧ ((lookupA (StoreDocument st collName doc now io).1.schema.collections collName).map
        fun c => c.stats.lastUpdated) = some now := by
  have hkey : StoreDocument st collName doc now io
      = StoreDocumentBody st collName
          { doc with
            createdAt := if doc.createdAt = 0 then now else doc.createdAt,
            updatedAt := now, collectionID := collName, version := doc.version + 1 }
          collection now io := by
    unfold StoreDocument
    rw [hcoll]
  rw [hkey]
  unfold StoreDocumentBody
  have hw := storeDocumentWrites_fail
    { st with
      schema := { st.schema with
        collections := updateA st.schema.collections collName
          { collection with
            documents := updateA collection.documents doc.id
              { doc with
                createdAt := if doc.createdAt = 0 then now else doc.createdAt,
                updatedAt := now, collectionID := collName, version := doc.version + 1 },
            stats := { collection.stats with
              documentCount := (updateA collection.documents doc.id
                { doc with
                  createdAt := if doc.createdAt = 0 then now else doc.createdAt,
                  updatedAt := now, collectionID := collName,
                  version := doc.version + 1 }).length,
              lastUpdated := now },
            updatedAt := now } } }
    collName
    { doc with
      createdAt := if doc.createdAt = 0 then now else doc.createdAt,
      updatedAt := now, collectionID := collName, version := doc.version + 1 }
    { collection with
      documents := updateA collection.documents doc.id
        { doc with
          createdAt := if doc.createdAt = 0 then now else doc.createdAt,
          updatedAt := now, collectionID := collName, version := doc.version + 1 },
      stats := { collection.stats with
        documentCount := (updateA collection.documents doc.id
          { doc with
            createdAt := if doc.createdAt = 0 then now else doc.createdAt,
            updatedAt := now, collectionID := collName, version := doc.version + 1 }).length,
        lastUpdated := now },
      updatedAt := now }
    now io st.basePath hfail
  have hproj := show ({ st with
      schema := { st.schema with
        collections := updateA st.schema.collections collName
          { collection with
            documents := updateA collection.documents doc.id
              { doc with
                createdAt := if doc.createdAt = 0 then now else doc.createdAt,
                updatedAt := now, collectionID := collName, version := doc.version + 1 },
            stats := { collection.stats with
              documentCount := (updateA collection.documents doc.id
                { doc with
                  createdAt := if doc.createdAt = 0 then now else doc.createdAt,
                  updatedAt := now, collectionID := collName,
                  version := doc.version + 1 }).length,
              lastUpdated := now },
            updatedAt := now } } } : LocalState).schema.collections
      = updateA st.schema.collections collName
          { collection with
            documents := updateA collection.documents doc.id
              { doc with
                createdAt := if doc.createdAt = 0 then now else doc.createdAt,
                updatedAt := now, collectionID := collName, version := doc.version + 1 },
            stats := { collection.stats with
              documentCount := (updateA collection.documents doc.id
                { doc with
                  createdAt := if doc.createdAt = 0 then now else doc.createdAt,
                  updatedAt := now, collectionID := collName,
                  version := doc.version + 1 }).length,
              lastUpdated := now },
            updatedAt := now } from rfl
  refine ⟨hw.1, hw.2.2, ?_, ?_⟩
  · unfold docLookup
    rw [hw.2.1]
    rw [hproj]
    rw [lookupA_updateA]
    simp only [Option.bind_some]
    exact lookupA_updateA _ _ _
  · rw [hw.2.1]
    rw [hproj]
    rw [lookupA_updateA]
    rfl

/-- A plain text document with no embedding and no content. -/
def docC6 : Document := ⟨"d1", "", "text", 0, 0, 0, [], none, none, [], []⟩

/-- The oracle in which the document file write fails. -/
def ioFailDoc : IOOracle := ⟨false, true, true⟩

/-- Concrete instantiation of `storeDocument_write_failure_spec`: a failing
document write on collection `"c"` aborts with `storage_io` and leaves the
persisted schema untouched. -/
theorem storeDocument_write_failure_spec_witness :
    lookupA stC7.schema.collections "c" = some emptyColl
    ∧ ioFailDoc.docWriteOk = false
    ∧ (StoreDocument stC7 "c" docC6 1 ioFailDoc).2 = some "storage_io"
    ∧ (StoreDocument stC7 "c" docC6 1 ioFailDoc).1.persisted = stC7.persisted := by
  have h := storeDocument_write_failure_spec stC7 "c" docC6 1 ioFailDoc emptyColl rfl
    (Or.inl rfl)
  exact ⟨rfl, rfl, h.1, h.2.1⟩

/-- C6 counterexample.  Against the claim that the collection's document map
and stats are unchanged on a write failure: after a failing document write,
the document is present in the in-memory map and the document count has
grown from 0 to 1 (only the persisted schema is unchanged). -/
theorem storeDocument_partial_update :
    docLookup stC7 "c" "d1" = none
    ∧ (StoreDocument stC7 "c" docC6 1 ioFailDoc).2 = some "storage_io"
    ∧ (docLookup (StoreDocument stC7 "c" docC6 1 ioFailDoc).1 "c" "d1").isSome = true
    ∧ ((lookupA (StoreDocument stC7 "c" docC6 1 ioFailDoc).1.schema.collections "c").map
        fun c => c.stats.documentCount) = some 1
    ∧ emptyColl.stats.documentCount = 0
    ∧ (StoreDocument stC7 "c" docC6 1 ioFailDoc).1.persisted = stC7.persisted :=
  ⟨rfl, rfl, rfl, rfl, rfl, rfl⟩

/-- C10.  A successful `StoreDocument` of a document with a non-empty
embedding vector clears the inline vector to empty, records the embedding
file path on the stored document, and writes the full embedding to the side
file at that path; this happens for every non-empty vector, with no size
threshold. -/
theorem storeDocument_offloads_embedding (st : LocalState) (collName : String)
    (doc : Document) (now : GoTime) (collection : Collection) (emb : EmbeddingData)
    (hcoll : lookupA st.schema.collections collName = some collection)
    (hemb : doc.embedding = some emb) (hlen : 0 < emb.vector.length) :
    (StoreDocument st collName doc now ⟨true, true, true⟩).2 = none
    ∧ (∃ d, docLookup (StoreDocument st collName doc now ⟨true, true, true⟩).1 collName doc.id
        = some d
        ∧ d.embedding = some { emb with
            path := getEmbeddingPath st.basePath collName doc.id, vector := [] })
    ∧ lookupA (StoreDocument st collName doc now ⟨true, true, true⟩).1.embFiles
        (getEmbeddingPath st.basePath collName doc.id) = some emb := by
  have hkey : StoreDocument st collName doc now ⟨true, true, true⟩
      = StoreDocumentBody st collName
          { doc with
            createdAt := if doc.createdAt = 0 then now else doc.createdAt,
            updatedAt := now, collectionID := collName, version := doc.version + 1 }
          collection now ⟨true, true, true⟩ := by
    unfold StoreDocument
    rw [hcoll]
  rw [hkey]
  unfold StoreDocumentBody StoreDocumentWrites
  rw [if_neg (by simp)]
  simp only [hemb]
  rw [if_pos (show emb.vector.length > 0 from hlen), if_neg (by simp)]
  unfold finishStore saveSchema
  rw [if_pos rfl]
  refine ⟨rfl, ⟨{ doc with
      createdAt := if doc.createdAt = 0 then now else doc.createdAt,
      updatedAt := now, collectionID := collName, version := doc.version + 1,
      content := saveContent st.basePath collName doc.id doc.content,
      embedding := some { emb with
        path := getEmbeddingPath st.basePath collName doc.id, vector := [] } }, ?_, rfl⟩, ?_⟩
  · unfold docLookup
    rw [show (∀ (s : StorageSchema), ({ s with updatedAt := now } : StorageSchema).collections
        = s.collections) from fun s => rfl]
    rw [lookupA_updateA]
    simp only [Option.bind_some]
    exact lookupA_updateA _ _ _
  · exact lookupA_updateA _ _ _

/-- The embedding of the concrete offloading scenario: a one-dimensional
vector with no path. -/
def embC10 : EmbeddingData := ⟨[1], 1, "model", 0, [], ""⟩

/-- A document carrying `embC10` inline. -/
def docC10 : Document := ⟨"d2", "", "text", 0, 0, 0, [], none, some embC10, [], []⟩

/-- Concrete instantiation of `storeDocument_offloads_embedding`: storing
`docC10` in collection `"c"` succeeds, clears the inline vector, and leaves
the full embedding in the side file. -/
theorem storeDocument_offloads_embedding_witness :
    lookupA stC7.schema.collections "c" = some emptyColl
    ∧ docC10.embedding = some embC10
    ∧ 0 < embC10.vector.length
    ∧ (StoreDocument stC7 "c" docC10 1 ⟨true, true, true⟩).2 = none
    ∧ (∃ d, docLookup (StoreDocument stC7 "c" docC10 1 ⟨true, true, true⟩).1 "c" "d2"
        = some d
        ∧ d.embedding = some { embC10 with
            path := getEmbeddingPath "base" "c" "d2", vector := [] })
    ∧ lookupA (StoreDocument stC7 "c" docC10 1 ⟨true, true, true⟩).1.embFiles
        (getEmbeddingPath "base" "c" "d2") = some embC10 := by
  have h := storeDocument_offloads_embedding stC7 "c" docC10 1 emptyColl embC10
    rfl rfl (by decide)
  exact ⟨rfl, rfl, by decide, h.1, h.2.1, h.2.2⟩

/-- `ingestion.SourceConfig` (the fields the `Run` loop reads; `nspace`
stands for the Go field `Namespace`). -/
structure SourceConfig where
  nspace : String
  batchSize : Nat
  dryRun : Bool
  verbose : Bool

/-- `ingestion.Record`: a record surfaced by a source. -/
structure IngestRecord where
  id : String
  text : String
  metadata : String → Option String

/-- One `source.Next()` outcome before end-of-stream: a transient read
error or a record.  End-of-stream is the end of the event list. -/
inductive SourceEvent where
  | readErr
  | next (r : IngestRecord)

/-- The embedder handle: text embedding plus the optional image capability
(the Go type assertion to `EmbedImage`). -/
structure Embedder where
  embed : String → Except String (List ℝ)
  embedImage : Option (String → Except String (List ℝ))

/-- `ingestion.Stats` counters (wall-clock fields are not modelled;
`failureReasons` is the Go `map[string]int` read at its keys). -/
structure Stats where
  totalRecords : Nat
  successCount : Nat
  failureCount : Nat
  skippedCount : Nat
  failureReasons : String → Nat

/-- The stats of a fresh `Ingestor`. -/
def initialStats : Stats := ⟨0, 0, 0, 0, fun _ => 0⟩

/-- `ing.stats.FailureReasons[reason]++`. -/
def incReason (fr : String → Nat) (reason : String) : String → Nat :=
  fun s => if s = reason then fr s + 1 else fr s

/-- The in-flight state of `Ingestor.Run`: the stats, the current batch,
and the bound storage (the in-memory store). -/
structure IngestState where
  stats : Stats
  batch : List Vector
  storeMap : StoreMap

/-- The state of a fresh run over a fresh memory store. -/
def initState : IngestState := ⟨initialStats, [], emptyStore⟩

/-- One iteration of the `processBatch` store loop: a `Store` failure
increments `storage_error`, a success increments `success`. -/
def storeOne (now : GoTime) (s : IngestState) (vector : Vector) : IngestState :=
  match Store s.storeMap vector now with
  | .error _ => { s with stats := { s.stats with
      failureCount := s.stats.failureCount + 1,
      failureReasons := incReason s.stats.failureReasons "storage_error" } }
  | .ok m => { s with storeMap := m, stats := { s.stats with
      successCount := s.stats.successCount + 1 } }

/-- `Ingestor.processBatch`: dry-run counts the whole batch as success
without touching storage, otherwise each vector is stored in order. -/
def processBatch (config : SourceConfig) (now : GoTime) (st : IngestState)
    (batch : List Vector) : IngestState :=
  if config.dryRun then
    { st with stats := { st.stats with
        successCount := st.stats.successCount + batch.length } }
  else batch.foldl (storeOne now) st

/-- The tail of the per-record loop body after an embedding was produced:
build the vector (synthesizing an id from the clock `nano` and the current
total when the source gave none), append it to the batch, and flush when
the batch is full. -/
def buildVector (nano : Nat) (now : GoTime) (total : Nat) (record : IngestRecord)
    (embedding : List ℝ) : Vector :=
  { id := if record.id = "" then "vec_" ++ toString nano ++ "_" ++ toString total else record.id,
    embedding := embedding, metadata := record.metadata,
    createdAt := now, updatedAt := now }

/-- After an embedding was produced: append the built vector to the batch,
flushing (and resetting the batch) when it reaches `batchSize`. -/
def afterEmbed (config : SourceConfig) (nano : Nat) (now : GoTime) (st : IngestState)
    (record : IngestRecord) : Except String (List ℝ) → IngestState
  | .error _ => { st with stats := { st.stats with
      failureCount := st.stats.failureCount + 1,
      failureReasons := incReason st.stats.failureReasons "embed_error" } }
  | .ok embedding =>
      if (st.batch ++ [buildVector nano now st.stats.totalRecords record embedding]).length
          ≥ config.batchSize then
        { processBatch config now st
            (st.batch ++ [buildVector nano now st.stats.totalRecords record embedding]) with
          batch := [] }
      else
        { st with
          batch := st.batch ++ [buildVector nano now st.stats.totalRecords record embedding] }

/-- The per-record part of the `Run` loop after `total` was incremented:
skip empty text, select image or text embedding (an image record without an
image-capable embedder counts `embedder_not_multimodal`), then hand the
result to `afterEmbed`. -/
def ingestRecord (config : SourceConfig) (embedder : Embedder) (nano : Nat)
    (now : GoTime) (st : IngestState) (record : IngestRecord) : IngestState :=
  if record.text = "" then
    { st with stats := { st.stats with skippedCount := st.stats.skippedCount + 1 } }
  else if (record.metadata "type").getD "" = "image" then
    match embedder.embedImage with
    | none => { st with stats := { st.stats with
        failureCount := st.stats.failureCount + 1,
        failureReasons := incReason st.stats.failureReasons "embedder_not_multimodal" } }
    | some embedImage => afterEmbed config nano now st record (embedImage record.text)
  else afterEmbed config nano now st record (embedder.embed record.text)

/-- One iteration of the `Run` loop: a read error increments `read_error`
without touching `total`; a record increments `total` and is processed. -/
def ingestStep (config : SourceConfig) (embedder : Embedder) (nano : Nat) (now : GoTime)
    (st : IngestState) (ev : SourceEvent) : IngestState :=
  match ev with
  | .readErr => { st with stats := { st.stats with
      failureCount := st.stats.failureCount + 1,
      failureReasons := incReason st.stats.failureReasons "read_error" } }
  | .next record =>
      ingestRecord config embedder nano now
        { st with stats := { st.stats with
            totalRecords := st.stats.totalRecords + 1 } } record

/-- The end-of-stream drain: `if len(batch) > 0 \x7b processBatch \x7d`. -/
def finalFlush (config : SourceConfig) (now : GoTime) (st : IngestState) : IngestState :=
  if st.batch.length > 0 then processBatch config now st st.batch else st

/-- `Ingestor.Run` over an already-opened source whose remaining events are
`events` (end-of-stream at the end of the list; the deadline never fires):
fold the loop, then flush the remaining batch.  `nano` models
`time.Now().UnixNano()` for id synthesis and `now` the stored timestamps. -/
def Run (config : SourceConfig) (embedder : Embedder) (nano : Nat) (now : GoTime)
    (events : List SourceEvent) : IngestState :=
  finalFlush config now (events.foldl (ingestStep config embedder nano now) initState)

lemma storeLoop_preserves (now : GoTime) (batch : List Vector) (st : IngestState) :
    (batch.foldl (storeOne now) st).stats.totalRecords = st.stats.totalRecords
    ∧ (batch.foldl (storeOne now) st).stats.skippedCount = st.stats.skippedCount := by
  induction batch generalizing st with
  | nil => exact ⟨rfl, rfl⟩
  | cons v rest ih =>
      rw [List.foldl_cons]
      unfold storeOne
      cases Store st.storeMap v now with
      | error e => exact ih _
      | ok m => exact ih _

lemma processBatch_preserves (config : SourceConfig) (now : GoTime) (st : IngestState)
    (batch : List Vector) :
    (processBatch config now st batch).stats.totalRecords = st.stats.totalRecords
    ∧ (processBatch config now st batch).stats.skippedCount = st.stats.skippedCount := by
  unfold processBatch
  split
  · exact ⟨rfl, rfl⟩
  · exact storeLoop_preserves now batch st

lemma afterEmbed_preserves (config : SourceConfig) (nano : Nat) (now : GoTime)
    (st : IngestState) (record : IngestRecord) (res : Except String (List ℝ)) :
    (afterEmbed config nano now st record res).stats.totalRecords = st.stats.totalRecords
    ∧ (afterEmbed config nano now st record res).stats.skippedCount = st.stats.skippedCount := by
  cases res with
  | error e => exact ⟨rfl, rfl⟩
  | ok embedding =>
      rw [show afterEmbed config nano now st record (.ok embedding)
          = (if (st.batch ++ [buildVector nano now st.stats.totalRecords record embedding]).length
                ≥ config.batchSize then
              { processBatch config now st
                  (st.batch ++ [buildVector nano now st.stats.totalRecords record embedding]) with
                batch := [] }
            else
              { st with
                batch := st.batch ++ [buildVector nano now st.stats.totalRecords record embedding] })
        from rfl]
      split
      · exact processBatch_preserves config now st _
      · exact ⟨rfl, rfl⟩

lemma ingestRecord_preserves_total (config : SourceConfig) (embedder : Embedder)
    (nano : Nat) (now : GoTime) (st : IngestState) (record : IngestRecord) :
    (ingestRecord config embedder nano now st record).stats.totalRecords
      = st.stats.totalRecords := by
  unfold ingestRecord
  split
  · rfl
  · split
    · cases embedder.embedImage with
      | none => rfl
      | some f => exact (afterEmbed_preserves config nano now st record _).1
    · exact (afterEmbed_preserves config nano now st record _).1

/-- The scenario source: 10 records pulled, the 5th with empty text, the
6th with text `"bad"` that fails embedding, the other 8 embeddable. -/
def eventsC8 : List SourceEvent :=
  [.next ⟨"", "q1", fun _ => none⟩, .next ⟨"", "q2", fun _ => none⟩,
   .next ⟨"", "q3", fun _ => none⟩, .next ⟨"", "q4", fun _ => none⟩,
   .next ⟨"", "", fun _ => none⟩, .next ⟨"", "bad", fun _ => none⟩,
   .next ⟨"", "q5", fun _ => none⟩, .next ⟨"", "q6", fun _ => none⟩,
   .next ⟨"", "q7", fun _ => none⟩, .next ⟨"", "q8", fun _ => none⟩]

/-- The scenario configuration: batches of 3, no dry-run. -/
def configC8 : SourceConfig := ⟨"", 3, false, false⟩

/-- The scenario embedder: text `"bad"` fails, everything else embeds. -/
def embedderC8 : Embedder :=
  ⟨fun t => if t = "bad" then .error "embedder_error" else .ok [1], none⟩

/-- C8.  Ingestion accounting: a successfully pulled record increments
`total`; an empty-text record increments `skipped` and is neither embedded
nor stored (batch, store, success and failure untouched); a record whose
embedding call fails increments `failure` and `failure_reasons[embed_error]`
without touching batch or store; and the 10-record scenario (1 empty-text,
1 embed-failing, 8 successful) ends with total=10, success=8, skipped=1,
failure=1 and failure_reasons carrying exactly one `embed_error`. -/
theorem ingestion_accounting_spec (config : SourceConfig) (embedder : Embedder)
    (nano : Nat) (now : GoTime) (st : IngestState) (r : IngestRecord) :
    ((ingestStep config embedder nano now st (.next r)).stats.totalRecords
        = st.stats.totalRecords + 1)
    ∧ (r.text = "" →
        (ingestStep config embedder nano now st (.next r)).stats.skippedCount
            = st.stats.skippedCount + 1
        ∧ (ingestStep config embedder nano now st (.next r)).batch = st.batch
        ∧ (ingestStep config embedder nano now st (.next r)).storeMap = st.storeMap
        ∧ (ingestStep config embedder nano now st (.next r)).stats.successCount
            = st.stats.successCount
        ∧ (ingestStep config embedder nano now st (.next r)).stats.failureCount
            = st.stats.failureCount)
    ∧ (∀ e, r.text ≠ "" → (r.metadata "type").getD "" ≠ "image" →
        embedder.embed r.text = .error e →
        (ingestStep config embedder nano now st (.next r)).stats.failureCount
            = st.stats.failureCount + 1
        ∧ (ingestStep config embedder nano now st (.next r)).stats.failureReasons "embed_error"
            = st.stats.failureReasons "embed_error" + 1
        ∧ (ingestStep config embedder nano now st (.next r)).batch = st.batch
        ∧ (ingestStep config embedder nano now st (.next r)).storeMap = st.storeMap)
    ∧ ((Run configC8 embedderC8 7 0 eventsC8).stats.totalRecords = 10
        ∧ (Run configC8 embedderC8 7 0 eventsC8).stats.successCount = 8
        ∧ (Run configC8 embedderC8 7 0 eventsC8).stats.skippedCount = 1
        ∧ (Run configC8 embedderC8 7 0 eventsC8).stats.failureCount = 1
        ∧ (Run configC8 embedderC8 7 0 eventsC8).stats.failureReasons "embed_error" = 1
        ∧ (Run configC8 embedderC8 7 0 eventsC8).stats.failureReasons "read_error" = 0
        ∧ (Run configC8 embedderC8 7 0 eventsC8).stats.failureReasons "storage_error" = 0
        ∧ (Run configC8 embedderC8 7 0 eventsC8).stats.failureReasons "embedder_not_multimodal"
            = 0) := by
  refine ⟨?_, ?_, ?_, ?_⟩
  · show (ingestRecord config embedder nano now _ r).stats.totalRecords = _
    rw [ingestRecord_preserves_total]
  · intro h
    rw [show ingestStep config embedder nano now st (.next r)
        = ingestRecord config embedder nano now
            { st with stats := { st.stats with
                totalRecords := st.stats.totalRecords + 1 } } r from rfl]
    unfold ingestRecord
    rw [if_pos h]
    exact ⟨rfl, rfl, rfl, rfl, rfl⟩
  · intro e htext himg hembed
    rw [show ingestStep config embedder nano now st (.next r)
        = ingestRecord config embedder nano now
            { st with stats := { st.stats with
                totalRecords := st.stats.totalRecords + 1 } } r from rfl]
    unfold ingestRecord
    rw [if_neg htext, if_neg himg, hembed]
    refine ⟨rfl, ?_, rfl, rfl⟩
    show incReason st.stats.failureReasons "embed_error" "embed_error"
        = st.stats.failureReasons "embed_error" + 1
    simp [incReason]
  · exact ⟨rfl, rfl, rfl, rfl, rfl, rfl, rfl, rfl⟩

/-- Concrete instantiation of `ingestion_accounting_spec`: pulling the
empty-text record increments `skipped` and leaves batch and store alone;
pulling the `"bad"` record increments `failure` and `embed_error`. -/
theorem ingestion_accounting_spec_witness :
    (("" : String) = ""
      ∧ (ingestStep configC8 embedderC8 7 0 initState (.next ⟨"", "", fun _ => none⟩)).stats.skippedCount
          = initState.stats.skippedCount + 1)
    ∧ (("bad" : String) ≠ ""
      ∧ embedderC8.embed "bad" = .error "embedder_error"
      ∧ (ingestStep configC8 embedderC8 7 0 initState (.next ⟨"", "bad", fun _ => none⟩)).stats.failureReasons "embed_error"
          = initState.stats.failureReasons "embed_error" + 1) := by
  have h1 := (ingestion_accounting_spec configC8 embedderC8 7 0 initState
    ⟨"", "", fun _ => none⟩).2.1 rfl
  have h2 := (ingestion_accounting_spec configC8 embedderC8 7 0 initState
    ⟨"", "bad", fun _ => none⟩).2.2.1 "embedder_error" (by decide) (by decide) rfl
  exact ⟨⟨rfl, h1.1⟩, ⟨by decide, rfl, h2.2.1⟩⟩

end SameSame
